import Mathlib

/-!
Shallow embedding of the Okta JWT verifier (`jwtverifier.go`) and proofs
about its verification pipeline, claim validators, structural validator
and metadata-cache contract.

Modelling conventions:
* Go `interface{}` values produced by JSON decoding or handed to the
  validators are modelled by the tagged union `GoValue`.  Go's JSON
  decoder produces `float64` for every number; we model such numbers
  with `ℚ` (exact arithmetic) rather than floating point.
* Go errors are modelled as their message strings; `(T, error)` returns
  become `Except String T`.
* External collaborators (the HTTP client, `encoding/json` header
  unmarshalling, the metadata cache `Get`, the signature adaptor
  `Decode`, the discovery provider and the clock) are parameters,
  gathered in the `External` structure.
* `fmt.Sprintf` of a dynamic value (`%v` / `%s`) is modelled by
  `goSprintV`; for maps and numbers the rendering is abbreviated, which
  no theorem below depends on.
-/

namespace OktaJwt

/-- Dynamic Go value (`interface{}`), distinguishing the dynamic types the
source's type switches distinguish: `string`, `float64` (every JSON
number), `bool`, `[]string`, `[]interface{}`, `map[string]interface{}`
and `nil`. -/
inductive GoValue where
  | null : GoValue
  | str : String → GoValue
  | num : ℚ → GoValue
  | boolean : Bool → GoValue
  | strList : List String → GoValue
  | list : List GoValue → GoValue
  | obj : List (String × GoValue) → GoValue

/-- Go `x == e` where `x : interface\x7b\x7d` and `e : string`: true exactly
when the dynamic type of `x` is `string` and the contents agree. -/
def GoValue.eqStr : GoValue → String → Bool
  | .str s, t => s = t
  | _, _ => false

/-- Dynamic type test for `nil`. -/
def GoValue.isNull : GoValue → Bool
  | .null => true
  | _ => false

/-- Dynamic type test for `map[string]interface\x7b\x7d`. -/
def GoValue.isObj : GoValue → Bool
  | .obj _ => true
  | _ => false

/-- Render a list of strings the way Go's `%s` does (`[a b c]`). -/
def joinSpaced : List String → String
  | [] => ""
  | [x] => x
  | x :: xs => x ++ " " ++ joinSpaced xs

/-- Model of `fmt.Sprintf` with verb `%v` (or `%s`) on a dynamic value.  Strings,
booleans, `nil` and string slices follow Go's rendering; numbers, nested
slices and maps are abbreviated (no theorem depends on those cases). -/
def goSprintV : GoValue → String
  | .null => "<nil>"
  | .str s => s
  | .num q => toString q
  | .boolean b => if b then "true" else "false"
  | .strList l => "[" ++ joinSpaced l ++ "]"
  | .list _ => "[…]"
  | .obj _ => "map[…]"

/-- Go map lookup on a decoded JSON object: absent keys yield the zero
`interface\x7b\x7d`, i.e. `nil`. -/
def lookupGo (m : List (String × GoValue)) (k : String) : GoValue :=
  match m.find? (fun p => p.1 == k) with
  | some p => p.2
  | none => .null

/-- The verifier's configuration fields read by the claim checks: the
`Issuer` string and the `ClaimsToValidate` map. -/
structure Config where
  Issuer : String
  ClaimsToValidate : List (String × String)

/-- Read of `j.ClaimsToValidate[k]` together with the `exists` flag of Go's
comma-ok map read. -/
def claimsLookup (cfg : Config) (k : String) : Option String :=
  (cfg.ClaimsToValidate.find? (fun p => p.1 == k)).map (fun p => p.2)

/-- Read of `j.ClaimsToValidate[k]` without the comma-ok flag: absent keys give
the zero value `""`. -/
def claimsGet (cfg : Config) (k : String) : String :=
  (claimsLookup cfg k).getD ""

/-- Model of `strings.TrimRight(s, "/")`: remove every trailing `'/'`. -/
def trimTrailingSlashes (s : String) : String :=
  String.mk ((s.data.reverse.dropWhile (fun c => c = '/')).reverse)

/-- Source function `normalizeIssuer`: stringify with `%v` and trim trailing slashes. -/
def normalizeIssuer (s : GoValue) : String :=
  trimTrailingSlashes (goSprintV s)

/-- Source function `validateIss`: both the claim value and the configured issuer are
normalized and compared for equality. -/
def validateIss (cfg : Config) (issuer : GoValue) : Except String Unit :=
  let normalizedIssuer := normalizeIssuer issuer
  let expectedIssuer := normalizeIssuer (.str cfg.Issuer)
  if normalizedIssuer = expectedIssuer then .ok ()
  else .error ("iss: " ++ normalizedIssuer ++ " does not match " ++ expectedIssuer)

/-- Source function `validateNonce`: a `nil` claim is replaced by `""`, then compared (as
a dynamic value) against the configured nonce string. -/
def validateNonce (cfg : Config) (nonce : GoValue) : Except String Unit :=
  let nonce' := if nonce.isNull then GoValue.str "" else nonce
  if nonce'.eqStr (claimsGet cfg "nonce") then .ok ()
  else .error ("nonce: " ++ goSprintV nonce' ++ " does not match " ++ claimsGet cfg "nonce")

/-- The `for _, e := range v` loop of `validateAudience`'s
`[]interface\x7b\x7d` case: left-to-right, a non-string element aborts with the
unknown-type error, a matching string element returns success, exhaustion
yields the mismatch error. -/
def scanAudList (expected : String) (whole : List GoValue) :
    List GoValue → Except String Unit
  | [] => .error ("aud: " ++ goSprintV (.list whole) ++ " does not match " ++ expected)
  | e :: rest =>
    match e with
    | .str element =>
      if element = expected then .ok () else scanAudList expected whole rest
    | _ => .error "unknown type for audience validation"

/-- Source function `validateAudience`: optional; checked only when `"aud"` is configured
and the dynamic value is not already equal to the expected string. -/
def validateAudience (cfg : Config) (audience : GoValue) : Except String Unit :=
  match claimsLookup cfg "aud" with
  | none => .ok ()
  | some expectedAudience =>
    if audience.eqStr expectedAudience then .ok ()
    else
      match audience with
      | .str v =>
        if v = claimsGet cfg "aud" then .ok ()
        else .error ("aud: " ++ v ++ " does not match " ++ claimsGet cfg "aud")
      | .strList v =>
        if v.contains (claimsGet cfg "aud") then .ok ()
        else .error ("aud: " ++ goSprintV (.strList v) ++ " does not match " ++ claimsGet cfg "aud")
      | .list v => scanAudList (claimsGet cfg "aud") v v
      | _ => .error "unknown type for audience validation"

/-- Source function `validateClientId`: optional; the type switch handles only `string`
and `[]string` — there is no `[]interface\x7b\x7d` case, so JSON-decoded lists
fall to `default`. -/
def validateClientId (cfg : Config) (clientId : GoValue) : Except String Unit :=
  match claimsLookup cfg "cid" with
  | none => .ok ()
  | some cid =>
    if clientId.eqStr cid then .ok ()
    else
      match clientId with
      | .str v =>
        if v = cid then .ok ()
        else .error ("cid: " ++ v ++ " does not match " ++ cid)
      | .strList v =>
        if v.contains cid then .ok ()
        else .error ("cid: " ++ goSprintV (.strList v) ++ " does not match " ++ cid)
      | _ => .error "unknown type for clientId validation"

/-- Source function `validateExp`: the claim must have dynamic type `float64`; the token
is expired when `now - leeway > exp`. -/
def validateExp (leeway now : ℤ) (exp : GoValue) : Except String Unit :=
  match exp with
  | .num expf =>
    if ((now - leeway : ℤ) : ℚ) > expf then .error "the token is expired"
    else .ok ()
  | _ => .error "exp: missing"

/-- Source function `validateIat`: the claim must have dynamic type `float64`; the token
is rejected when `now + leeway < iat`. -/
def validateIat (leeway now : ℤ) (iat : GoValue) : Except String Unit :=
  match iat with
  | .num iatf =>
    if ((now + leeway : ℤ) : ℚ) < iatf then .error "the token was issued in the future"
    else .ok ()
  | _ => .error "iat: missing"

/-! ## Structural validator (`isValidJwt`, `padHeader`, the `regx` pattern) -/

/-- A character of the class `[a-zA-Z0-9-_]` of the source's `regx`. -/
def isSegChar (c : Char) : Bool :=
  c.isAlpha || c.isDigit || c = '-' || c = '_'

/-- A character of the class `[/a-zA-Z0-9-_]` of the source's `regx`. -/
def isTailChar (c : Char) : Bool :=
  isSegChar c || c = '/'

/-- Match `p`-characters one or more times (a `+` on the class `p`), then
hand the rest to the continuation `k`; true when some split succeeds.
Since we only ask for existence of a match, greedy and lazy repetition
coincide. -/
def plusThen (p : Char → Bool) (k : List Char → Bool) : List Char → Bool
  | [] => false
  | c :: cs => p c && (k cs || plusThen p k cs)

/-- The end of the pattern, `([a-zA-Z0-9-_]+)[/a-zA-Z0-9-_]+?$`, anchored
to the end of the text. -/
def tailPat (l : List Char) : Bool :=
  plusThen isSegChar (fun r => plusThen isTailChar List.isEmpty r) l

/-- The part after the first literal dot:
`[a-zA-Z0-9-_]+\.?([a-zA-Z0-9-_]+)[/a-zA-Z0-9-_]+?$`. -/
def afterFirstDot (l : List Char) : Bool :=
  plusThen isSegChar
    (fun r =>
      tailPat r ||
        match r with
        | '.' :: r2 => tailPat r2
        | _ => false) l

/-- The whole pattern
`[a-zA-Z0-9-_]+\.[a-zA-Z0-9-_]+\.?([a-zA-Z0-9-_]+)[/a-zA-Z0-9-_]+?$`,
anchored at both ends of the candidate text. -/
def regxAccepts (l : List Char) : Bool :=
  plusThen isSegChar
    (fun r =>
      match r with
      | '.' :: r2 => afterFirstDot r2
      | _ => false) l

/-- Go's `regx.MatchString`: an unanchored search, so the string matches
when any substring does; because the pattern ends in `$`, that substring
must be a suffix. -/
def regxMatchString (s : String) : Bool :=
  s.data.tails.any regxAccepts

/-- Source function `padHeader`: right-pad with `'='` to the next multiple of four. -/
def padHeader (header : String) : String :=
  if header.length % 4 ≠ 0 then
    header ++ String.mk (List.replicate (4 - header.length % 4) '=')
  else header

/-- Computation of `parts[0]` of `strings.Split(jwt, ".")`: the prefix before the first
dot (the whole string when there is no dot). -/
def headerPart (s : String) : String :=
  String.mk (s.data.takeWhile (fun c => c ≠ '.'))

/-- The value of one character of the standard base64 alphabet. -/
def base64DecodeChar (c : Char) : Option ℕ :=
  if 'A' ≤ c ∧ c ≤ 'Z' then some (c.toNat - 65)
  else if 'a' ≤ c ∧ c ≤ 'z' then some (c.toNat - 97 + 26)
  else if '0' ≤ c ∧ c ≤ '9' then some (c.toNat - 48 + 52)
  else if c = '+' then some 62
  else if c = '/' then some 63
  else none

/-- Decode standard base64 four characters at a time, as Go's
`base64.StdEncoding.DecodeString` does: the length must be a multiple of
four, `'='` padding may appear only as the last one or two characters of
the final group, and (like Go's non-strict decoder) leftover bits in the
final group are discarded. -/
def base64DecodeGroups : List Char → Option (List ℕ)
  | [] => some []
  | a :: b :: c :: d :: rest => do
    let va ← base64DecodeChar a
    let vb ← base64DecodeChar b
    if d = '=' then
      if ¬ rest.isEmpty then none
      else if c = '=' then
        some [va * 4 + vb / 16]
      else do
        let vc ← base64DecodeChar c
        some [va * 4 + vb / 16, (vb % 16) * 16 + vc / 4]
    else do
      let vc ← base64DecodeChar c
      let vd ← base64DecodeChar d
      let tail2 ← base64DecodeGroups rest
      some ([va * 4 + vb / 16, (vb % 16) * 16 + vc / 4, (vc % 4) * 64 + vd] ++ tail2)
  | _ => none

/-- Model of `base64.StdEncoding.DecodeString` on a string. -/
def base64StdDecode (s : String) : Option (List ℕ) :=
  base64DecodeGroups s.data

/-- Modelled from the spec: `errors.JwtEmptyStringError()` lives in the
repository's `errors` package, whose source is not included; §4.1 calls
this failure `EmptyToken`. -/
def jwtEmptyStringError : String := "EmptyToken"

/-- The `MalformedShape` message of the pattern check. -/
def malformedShapeError : String :=
  "token must contain at least 1 period ('.') and only characters 'a-Z 0-9 _'"

/-- Source function `isValidJwt`, with `encoding/json`'s `Unmarshal` into
`map[string]interface\x7b\x7d` supplied as the external parameter `unmarshal`
(`none` models a failed unmarshal): empty check, pattern check, base64
header decode, JSON header parse, `alg` and `kid` presence, `alg ==
"RS256"`. -/
def isValidJwt (unmarshal : List ℕ → Option (List (String × GoValue)))
    (jwt : String) : Except String Unit :=
  if jwt = "" then .error jwtEmptyStringError
  else if ¬ regxMatchString jwt then .error malformedShapeError
  else
    match base64StdDecode (padHeader (headerPart jwt)) with
    | none => .error "the tokens header does not appear to be a base64 encoded string"
    | some headerDecoded =>
      match unmarshal headerDecoded with
      | none => .error "the tokens header is not a json object"
      | some jsonObject =>
        if ¬ (jsonObject.find? (fun p => p.1 == "alg")).isSome then
          .error "the tokens header must contain an 'alg'"
        else if ¬ (jsonObject.find? (fun p => p.1 == "kid")).isSome then
          .error "the tokens header must contain a 'kid'"
        else if ¬ (lookupGo jsonObject "alg").eqStr "RS256" then
          .error "the only supported alg is RS256"
        else .ok ()

/-! ## Verification orchestrator (`VerifyIdToken`, `VerifyAccessToken`) -/

/-- The wrapped claim set returned by the verification entry points. -/
structure Jwt where
  Claims : List (String × GoValue)

/-- The external collaborators of one verification call: the header
unmarshaller (`encoding/json`), the metadata cache's `Get`, the signature
adaptor's `Decode`, the discovery provider's well-known suffix and the
clock (`time.Now().Unix()`), plus the configured leeway. -/
structure External where
  unmarshal : List ℕ → Option (List (String × GoValue))
  cacheGet : String → Except String GoValue
  adaptorDecode : String → String → Except String GoValue
  wellKnownUrl : String
  nowUnix : ℤ
  leeway : ℤ

/-- The result of a Go function that may also panic: either a normal
`(claims, err)` return or a run-time panic. -/
inductive GoResult (α : Type) where
  | ret (claims : Option α) (err : Option String)
  | panic (msg : String)

/-- Source function `getMetaData`: cache lookup keyed by issuer + well-known suffix, then
a checked cast of the cached value to `map[string]interface\x7b\x7d`. -/
def getMetaData (cfg : Config) (ext : External) :
    Except String (List (String × GoValue)) :=
  let metaDataUrl := cfg.Issuer ++ ext.wellKnownUrl
  match ext.cacheGet metaDataUrl with
  | .error e => .error e
  | .ok value =>
    match value with
    | .obj metadata => .ok metadata
    | v => .error ("unable to cast " ++ goSprintV v ++ " to metadata")

/-- Source function `decodeJwt`: metadata lookup, checked extraction of a string-typed
`jwks_uri`, then the adaptor's `Decode` with its error wrapped. -/
def decodeJwt (cfg : Config) (ext : External) (jwt : String) :
    Except String GoValue :=
  match getMetaData cfg ext with
  | .error e => .error e
  | .ok metaData =>
    match lookupGo metaData "jwks_uri" with
    | .str jwksURI =>
      match ext.adaptorDecode jwt jwksURI with
      | .error e => .error ("could not decode token: " ++ e)
      | .ok resp => .ok resp
    | _ => .error "failed to decode JWT: missing 'jwks_uri' from metadata"


/-- Source function `VerifyAccessToken`: structural check, decode, then the unchecked
type assertion `resp.(map[string]interface\x7b\x7d)` (a panic when the dynamic
type differs), then Issuer, Audience, Client Id, Expiration, Issued At. -/
def VerifyAccessToken (cfg : Config) (ext : External) (jwt : String) :
    GoResult Jwt :=
  match isValidJwt ext.unmarshal jwt with
  | .error err => .ret none (some ("token is not valid: " ++ err))
  | .ok _ =>
    match decodeJwt cfg ext jwt with
    | .error err => .ret none (some err)
    | .ok resp =>
      match resp with
      | .obj token =>
        let myJwt : Jwt := ⟨token⟩
        match validateIss cfg (lookupGo token "iss") with
        | .error err => .ret (some myJwt) (some ("the `Issuer` was not able to be validated. " ++ err))
        | .ok _ =>
          match validateAudience cfg (lookupGo token "aud") with
          | .error err => .ret (some myJwt) (some ("the `Audience` was not able to be validated. " ++ err))
          | .ok _ =>
            match validateClientId cfg (lookupGo token "cid") with
            | .error err => .ret (some myJwt) (some ("the `Client Id` was not able to be validated. " ++ err))
            | .ok _ =>
              match validateExp ext.leeway ext.nowUnix (lookupGo token "exp") with
              | .error err => .ret (some myJwt) (some ("the `Expiration` was not able to be validated. " ++ err))
              | .ok _ =>
                match validateIat ext.leeway ext.nowUnix (lookupGo token "iat") with
                | .error err => .ret (some myJwt) (some ("the `Issued At` was not able to be validated. " ++ err))
                | .ok _ => .ret (some myJwt) none
      | _ => .panic "interface conversion: interface \x7b\x7d is not map[string]interface \x7b\x7d"

/-- Source function `VerifyIdToken`: same pipeline, with Nonce in place of Client Id and
checked last. -/
def VerifyIdToken (cfg : Config) (ext : External) (jwt : String) :
    GoResult Jwt :=
  match isValidJwt ext.unmarshal jwt with
  | .error err => .ret none (some ("token is not valid: " ++ err))
  | .ok _ =>
    match decodeJwt cfg ext jwt with
    | .error err => .ret none (some err)
    | .ok resp =>
      match resp with
      | .obj token =>
        let myJwt : Jwt := ⟨token⟩
        match validateIss cfg (lookupGo token "iss") with
        | .error err => .ret (some myJwt) (some ("the `Issuer` was not able to be validated. " ++ err))
        | .ok _ =>
          match validateAudience cfg (lookupGo token "aud") with
          | .error err => .ret (some myJwt) (some ("the `Audience` was not able to be validated. " ++ err))
          | .ok _ =>
            match validateExp ext.leeway ext.nowUnix (lookupGo token "exp") with
            | .error err => .ret (some myJwt) (some ("the `Expiration` was not able to be validated. " ++ err))
            | .ok _ =>
              match validateIat ext.leeway ext.nowUnix (lookupGo token "iat") with
              | .error err => .ret (some myJwt) (some ("the `Issued At` was not able to be validated. " ++ err))
              | .ok _ =>
                match validateNonce cfg (lookupGo token "nonce") with
                | .error err => .ret (some myJwt) (some ("the `Nonce` was not able to be validated. " ++ err))
                | .ok _ => .ret (some myJwt) none
      | _ => .panic "interface conversion: interface \x7b\x7d is not map[string]interface \x7b\x7d"

/-! ## Constructor (`New`) and `SetLeeway` -/

/-- The mutable fields of `JwtVerifier` that `New` reads or writes;
pluggable collaborators are tracked by presence flags, durations in
nanoseconds. -/
structure VerifierState where
  hasDiscovery : Bool
  timeout : ℤ
  cleanup : ℤ
  hasClient : Bool
  hasCache : Bool
  hasAdaptor : Bool
  leeway : ℤ
  hasMetadataCache : Bool

/-- The two fallible external calls `New` makes: the default adaptor's
`New()` (only consulted when no adaptor was supplied) and the cache
constructor `j.Cache(j.fetchMetaData, j.Timeout, j.Cleanup)`. -/
structure NewExternal where
  adaptorNew : Except String Unit
  cacheNew : Except String Unit

/-- Default discovery provider when none is set. -/
def dfltDiscovery (j : VerifierState) : VerifierState :=
  if ¬ j.hasDiscovery then { j with hasDiscovery := true } else j

/-- Default timeout of five minutes when unset. -/
def dfltTimeout (j : VerifierState) : VerifierState :=
  if j.timeout = 0 then { j with timeout := 5 * 60 * 1000000000 } else j

/-- Default cleanup interval of ten minutes when unset. -/
def dfltCleanup (j : VerifierState) : VerifierState :=
  if j.cleanup = 0 then { j with cleanup := 10 * 60 * 1000000000 } else j

/-- Default HTTP client when none is set. -/
def dfltClient (j : VerifierState) : VerifierState :=
  if ¬ j.hasClient then { j with hasClient := true } else j

/-- Default cache constructor when none is set. -/
def dfltCache (j : VerifierState) : VerifierState :=
  if ¬ j.hasCache then { j with hasCache := true } else j

/-- The infallible default-filling prefix of `New`: discovery, timeout
5m, cleanup 10m, client and cache constructor, in the source's order. -/
def newDefaults (j : VerifierState) : VerifierState :=
  dfltCache (dfltClient (dfltCleanup (dfltTimeout (dfltDiscovery j))))

/-- Source function `New`: fill in defaults (`newDefaults`, then the
default adaptor — fallibly), then unconditionally set the leeway to 120
seconds, then build the metadata cache. -/
def New (ext : NewExternal) (j0 : VerifierState) : Except String VerifierState :=
  let j := newDefaults j0
  match (if ¬ j.hasAdaptor then ext.adaptorNew else .ok ()) with
  | .error e => .error e
  | .ok _ =>
    let j := if ¬ j.hasAdaptor then { j with hasAdaptor := true } else j
    let j := { j with leeway := 120 }
    match ext.cacheNew with
    | .error e => .error e
    | .ok _ => .ok { j with hasMetadataCache := true }

/-- Source function `SetLeeway`: overwrite the leeway with the parsed duration, in
seconds (`time.ParseDuration` is external; its result is the parameter —
a failed parse yields `0` since the error is discarded). -/
def SetLeeway (j : VerifierState) (durationSeconds : ℤ) : VerifierState :=
  { j with leeway := durationSeconds }

/-! ## Metadata cache (coalescing contract) -/

/-- Modelled from the spec: the cache behind `utils.NewDefaultCache` /
`utils.Cacher` (its source is not under `src/`; `getMetaData` only calls
its `Get`).  §4.2: a key is either absent, being fetched, or cached;
a miss with no fetch in flight starts exactly one fetch; concurrent
callers for a key with a fetch in flight coalesce into the in-flight
result; a successful fetch is stored, a failed fetch is not cached;
expiry/cleanup removes a stored entry. -/
structure CacheState where
  cached : String → Option GoValue
  inFlight : String → Bool

/-- One observable event of the cache: a caller's `Get` is a `hit`, a
`beginFetch` (the miss that invokes the fetch function) or a `join`
(coalescing with an in-flight fetch); the in-flight fetch resolves with
`fetchOk` or `fetchFail`; `expire` is TTL expiry or the cleanup sweep. -/
inductive CacheEvent where
  | hit (k : String)
  | beginFetch (k : String)
  | join (k : String)
  | fetchOk (k : String) (v : GoValue)
  | fetchFail (k : String)
  | expire (k : String)

/-- Modelled from the spec: the cache's small-step transition relation;
interleavings of concurrent callers are the traces of this relation.
`beginFetch` is enabled only on a miss with no fetch in flight. -/
inductive CacheStep : CacheState → CacheEvent → CacheState → Prop where
  | hit (s : CacheState) (k : String) (v : GoValue) :
      s.cached k = some v → CacheStep s (.hit k) s
  | beginFetch (s : CacheState) (k : String) :
      s.cached k = none → s.inFlight k = false →
      CacheStep s (.beginFetch k)
        { s with inFlight := Function.update s.inFlight k true }
  | join (s : CacheState) (k : String) :
      s.inFlight k = true → CacheStep s (.join k) s
  | fetchOk (s : CacheState) (k : String) (v : GoValue) :
      s.inFlight k = true →
      CacheStep s (.fetchOk k v)
        { cached := Function.update s.cached k (some v),
          inFlight := Function.update s.inFlight k false }
  | fetchFail (s : CacheState) (k : String) :
      s.inFlight k = true →
      CacheStep s (.fetchFail k)
        { s with inFlight := Function.update s.inFlight k false }
  | expire (s : CacheState) (k : String) :
      s.inFlight k = false →
      CacheStep s (.expire k)
        { s with cached := Function.update s.cached k none }

/-- A finite interleaved execution of the cache. -/
inductive CacheTrace : CacheState → List CacheEvent → CacheState → Prop where
  | nil (s : CacheState) : CacheTrace s [] s
  | cons {s s' s'' : CacheState} {e : CacheEvent} {evs : List CacheEvent} :
      CacheStep s e s' → CacheTrace s' evs s'' → CacheTrace s (e :: evs) s''

/-- Does this event invoke the fetch function for key `k`? -/
def isFetchFor (k : String) : CacheEvent → Bool
  | .beginFetch k2 => k2 = k
  | _ => false

/-- Number of fetch-function invocations for key `k` in a trace. -/
def fetchInvocations (k : String) (evs : List CacheEvent) : ℕ :=
  (evs.filter (isFetchFor k)).length

/-- Does this event remove key `k`'s progress (expiry, or a failed fetch,
which per §4.2 is not cached, so a later call legitimately refetches)? -/
def disruptsKey (k : String) : CacheEvent → Bool
  | .expire k2 => k2 = k
  | .fetchFail k2 => k2 = k
  | _ => false

/-- A caller's `Get` step for key `k` (hit, miss-and-fetch, or join). -/
def isGetFor (k : String) : CacheEvent → Bool
  | .hit k2 => k2 = k
  | .beginFetch k2 => k2 = k
  | .join k2 => k2 = k
  | _ => false

/-- Key `k` is either being fetched or already stored. -/
def busyOrCached (s : CacheState) (k : String) : Prop :=
  s.inFlight k = true ∨ (s.cached k).isSome

/-! ## Spec-side definitions (for the refinement statements) -/

/-- Amended audience contract for a JSON-decoded (`[]interface\x7b\x7d`) list,
stated by position rather than by a scan: skip the leading non-matching
string elements; if the list ends, mismatch; if the first remaining
element is a string (necessarily the expected one), pass; if it is a
non-string, the unknown-type error. -/
def audienceSpecList (expected : String) (whole : List GoValue) : Except String Unit :=
  match whole.dropWhile (fun e =>
      match e with
      | .str s => decide (s ≠ expected)
      | _ => false) with
  | [] => .error ("aud: " ++ goSprintV (.list whole) ++ " does not match " ++ expected)
  | .str _ :: _ => .ok ()
  | _ :: _ => .error "unknown type for audience validation"

/-- Amended C3 contract for the audience check: optional when no `aud` is
configured; a string passes exactly when equal; a `[]string` passes
exactly when it contains the expected value; a JSON-decoded list follows
`audienceSpecList` (a match hides any later non-string element); every
other dynamic type is the unknown-type error. -/
def validateAudienceSpec (cfg : Config) (audience : GoValue) : Except String Unit :=
  match claimsLookup cfg "aud" with
  | none => .ok ()
  | some expected =>
    match audience with
    | .str s =>
      if s = expected then .ok ()
      else .error ("aud: " ++ s ++ " does not match " ++ expected)
    | .strList l =>
      if l.contains expected then .ok ()
      else .error ("aud: " ++ goSprintV (.strList l) ++ " does not match " ++ expected)
    | .list l => audienceSpecList expected l
    | _ => .error "unknown type for audience validation"

/-- Amended C4 contract for the client-id check: optional when no `cid`
is configured; a string passes exactly when equal, a `[]string` exactly
when it contains the expected value; every other dynamic type — notably
the `[]interface\x7b\x7d` lists JSON decoding produces, and a missing (`nil`)
claim — is the unknown-type error. -/
def validateClientIdSpec (cfg : Config) (clientId : GoValue) : Except String Unit :=
  match claimsLookup cfg "cid" with
  | none => .ok ()
  | some cid =>
    match clientId with
    | .str s =>
      if s = cid then .ok ()
      else .error ("cid: " ++ s ++ " does not match " ++ cid)
    | .strList l =>
      if l.contains cid then .ok ()
      else .error ("cid: " ++ goSprintV (.strList l) ++ " does not match " ++ cid)
    | _ => .error "unknown type for clientId validation"

/-- UTF-8 bytes of the JSON header text used by the counterexample
token. -/
def exHeaderBytes : List ℕ :=
  [123, 34, 97, 108, 103, 34, 58, 34, 82, 83, 50, 53, 54, 34, 44, 34,
    107, 105, 100, 34, 58, 34, 97, 34, 125]

/-- Concrete instance of `encoding/json`'s `Unmarshal` for the
counterexample: on the header bytes it returns the decoded object, on
anything else it fails. -/
def exUnmarshal (bytes : List ℕ) : Option (List (String × GoValue)) :=
  if bytes = exHeaderBytes then
    some [("alg", .str "RS256"), ("kid", .str "a")]
  else none

/-- A token containing `'!'` — a character outside the pattern's
alphabet — whose first segment is the standard-base64 encoding of the
header object and whose end matches the pattern. -/
def exToken : String := "eyJhbGciOiJSUzI1NiIsImtpZCI6ImEifQ.x!y.zzz"

/-- First failing stage of a labelled check sequence: the earliest error,
wrapped with its stage label; `none` when every check passes. -/
def firstFailure : List (String × Except String Unit) → Option String
  | [] => none
  | (stage, r) :: rest =>
    match r with
    | .error e => some (stage ++ e)
    | .ok _ => firstFailure rest

/-- The labelled claim checks of `VerifyIdToken`, in the spec's fixed
order: Issuer, Audience, Expiry, Issued-At, Nonce. -/
def idChecks (cfg : Config) (ext : External) (token : List (String × GoValue)) :
    List (String × Except String Unit) :=
  [("the `Issuer` was not able to be validated. ", validateIss cfg (lookupGo token "iss")),
    ("the `Audience` was not able to be validated. ", validateAudience cfg (lookupGo token "aud")),
    ("the `Expiration` was not able to be validated. ", validateExp ext.leeway ext.nowUnix (lookupGo token "exp")),
    ("the `Issued At` was not able to be validated. ", validateIat ext.leeway ext.nowUnix (lookupGo token "iat")),
    ("the `Nonce` was not able to be validated. ", validateNonce cfg (lookupGo token "nonce"))]

/-- The labelled claim checks of `VerifyAccessToken`, in the spec's fixed
order: Issuer, Audience, Client ID, Expiry, Issued-At (no Nonce). -/
def accessChecks (cfg : Config) (ext : External) (token : List (String × GoValue)) :
    List (String × Except String Unit) :=
  [("the `Issuer` was not able to be validated. ", validateIss cfg (lookupGo token "iss")),
    ("the `Audience` was not able to be validated. ", validateAudience cfg (lookupGo token "aud")),
    ("the `Client Id` was not able to be validated. ", validateClientId cfg (lookupGo token "cid")),
    ("the `Expiration` was not able to be validated. ", validateExp ext.leeway ext.nowUnix (lookupGo token "exp")),
    ("the `Issued At` was not able to be validated. ", validateIat ext.leeway ext.nowUnix (lookupGo token "iat"))]

/-- The claim-check phase of the spec pipeline: the decoded value must
be a claim mapping, and then the given check sequence runs in order,
short-circuiting on its first failure, whose stage-wrapped error is
returned alongside the claim set. -/
def specClaimPhase
    (checks : List (String × GoValue) → List (String × Except String Unit))
    (resp : GoValue) : GoResult Jwt :=
  match resp with
  | .obj token =>
    match firstFailure (checks token) with
    | some e => .ret (some ⟨token⟩) (some e)
    | none => .ret (some ⟨token⟩) none
  | _ => .panic "interface conversion: interface \x7b\x7d is not map[string]interface \x7b\x7d"

/-- The spec's §4.4 pipeline, written as C1 states it: structural
validation, then the metadata-cache lookup keyed by issuer plus the
discovery well-known path, then the signature-adaptor decode fed the
token and the document's `jwks_uri`, then the given claim checks in
their fixed order; the earliest failing stage's error is returned. -/
def VerifyPipelineSpec (cfg : Config) (ext : External)
    (checks : List (String × GoValue) → List (String × Except String Unit))
    (jwt : String) : GoResult Jwt :=
  match isValidJwt ext.unmarshal jwt with
  | .error err => .ret none (some ("token is not valid: " ++ err))
  | .ok _ =>
    match ext.cacheGet (cfg.Issuer ++ ext.wellKnownUrl) with
    | .error e => .ret none (some e)
    | .ok value =>
      match value with
      | .obj metadata =>
        match lookupGo metadata "jwks_uri" with
        | .str jwksURI =>
          match ext.adaptorDecode jwt jwksURI with
          | .error e => .ret none (some ("could not decode token: " ++ e))
          | .ok resp => specClaimPhase checks resp
        | _ => .ret none (some "failed to decode JWT: missing 'jwks_uri' from metadata")
      | v => .ret none (some ("unable to cast " ++ goSprintV v ++ " to metadata"))

/-- The spec pipeline with the ID-token check sequence (Issuer,
Audience, Expiry, Issued-At, Nonce). -/
def VerifyIdTokenSpec (cfg : Config) (ext : External) (jwt : String) :
    GoResult Jwt :=
  VerifyPipelineSpec cfg ext (idChecks cfg ext) jwt

/-- The spec pipeline with the access-token check sequence (Issuer,
Audience, Client ID, Expiry, Issued-At). -/
def VerifyAccessTokenSpec (cfg : Config) (ext : External) (jwt : String) :
    GoResult Jwt :=
  VerifyPipelineSpec cfg ext (accessChecks cfg ext) jwt

/-- Observable shape of a normal return: the claim-set component and
whether an error is present (`none` for a panic). -/
def retShape : GoResult Jwt → Option (Option Jwt × Bool)
  | .ret c e => some (c, e.isSome)
  | .panic _ => none

/-- Predicate for a run-time panic result. -/
def isPanicRes : GoResult Jwt → Bool
  | .panic _ => true
  | .ret _ _ => false

/-- Success test for a Go `(T, error)` result. -/
def exceptOk {α β : Type} : Except α β → Bool
  | .ok _ => true
  | .error _ => false

lemma cacheStep_preserves_busyOrCached {s s' : CacheState} {e : CacheEvent}
    {k : String} (hstep : CacheStep s e s') (hd : disruptsKey k e = false)
    (h : busyOrCached s k) : busyOrCached s' k := by
  cases hstep with
  | hit _ _ _ => exact h
  | join _ _ => exact h
  | beginFetch k2 hc hf =>
    rcases h with h | h
    · left
      by_cases hk : k = k2 <;>
        simp [busyOrCached, Function.update_apply, hk, h]
    · exact Or.inr h
  | fetchOk k2 v hf =>
    by_cases hk : k = k2
    · subst hk
      right
      simp [Function.update_apply]
    · rcases h with h | h
      · left
        simp [Function.update_apply, hk, h]
      · right
        simp [Function.update_apply, hk, h]
  | fetchFail k2 hf =>
    have hk : ¬ k = k2 := by
      intro hh
      simp [disruptsKey, hh] at hd
    rcases h with h | h
    · left
      simp [Function.update_apply, hk, h]
    · exact Or.inr h
  | expire k2 hf =>
    have hk : ¬ k = k2 := by
      intro hh
      simp [disruptsKey, hh] at hd
    rcases h with h | h
    · exact Or.inl h
    · right
      simp [Function.update_apply, hk, h]

lemma cacheTrace_busy_no_fetch {k : String} :
    ∀ {s s1 : CacheState} {evs : List CacheEvent}, CacheTrace s evs s1 →
      (∀ e ∈ evs, disruptsKey k e = false) → busyOrCached s k →
      fetchInvocations k evs = 0 := by
  intro s s1 evs htr
  induction htr with
  | nil =>
    intro _ _
    rfl
  | cons hstep htr2 ih =>
    rename_i sa sb sc e evs2
    intro hclean h
    have hd : disruptsKey k e = false := hclean e (by simp)
    have hrest : ∀ e2 ∈ evs2, disruptsKey k e2 = false := by
      intro e2 he2
      exact hclean e2 (by simp [he2])
    have hb : isFetchFor k e = false := by
      cases hstep with
      | hit _ _ _ => rfl
      | join _ _ => rfl
      | fetchOk _ _ _ => rfl
      | fetchFail _ _ => rfl
      | expire _ _ => rfl
      | beginFetch k2 hc hf =>
        by_cases hk : k2 = k
        · subst hk
          rcases h with h | h
          · rw [hf] at h
            cases h
          · rw [hc] at h
            cases h
        · simp [isFetchFor, hk]
    have h' : busyOrCached sb k :=
      cacheStep_preserves_busyOrCached hstep hd h
    have h0 := ih hrest h'
    simp [fetchInvocations, List.filter_cons, hb] at h0 ⊢
    exact h0

/-- C8: for every key, a fetch is begun exactly once per uninterrupted
miss: starting from a state where `k` is uncached and idle, any trace
whose first event is a `Get` for `k` — with arbitrary interleaved events
of other callers, as long as `k`'s entry neither expires nor comes from a
failed fetch — invokes the fetch function for `k` exactly once; in
particular concurrent `Get`s for `k` while the fetch is in flight
coalesce and never trigger a duplicate fetch. -/
theorem cache_single_fetch_per_key {s0 s1 : CacheState} {k : String}
    {e : CacheEvent} {evs : List CacheEvent}
    (htr : CacheTrace s0 (e :: evs) s1)
    (hclean : ∀ x ∈ e :: evs, disruptsKey k x = false)
    (hget : isGetFor k e = true)
    (hc : s0.cached k = none) (hf : s0.inFlight k = false) :
    fetchInvocations k (e :: evs) = 1 := by
  cases htr with
  | cons hstep htr2 =>
    rename_i sb
    have hrest : ∀ e2 ∈ evs, disruptsKey k e2 = false := by
      intro e2 he2
      exact hclean e2 (by simp [he2])
    cases hstep with
    | hit k2 v hcached =>
      have hk : k2 = k := by simpa [isGetFor] using hget
      subst hk
      rw [hc] at hcached
      cases hcached
    | join k2 hflight =>
      have hk : k2 = k := by simpa [isGetFor] using hget
      subst hk
      rw [hf] at hflight
      cases hflight
    | fetchOk _ _ _ => simp [isGetFor] at hget
    | fetchFail _ _ => simp [isGetFor] at hget
    | expire _ _ => simp [isGetFor] at hget
    | beginFetch k2 hc2 hf2 =>
      have hk : k2 = k := by simpa [isGetFor] using hget
      subst hk
      have h0 := cacheTrace_busy_no_fetch htr2 hrest
        (Or.inl (by simp [Function.update_apply]))
      simp [fetchInvocations, List.filter_cons, isFetchFor] at h0 ⊢
      exact h0

/-- Witness for `cache_single_fetch_per_key`: a concrete four-event
interleaving — one caller begins the fetch, a concurrent caller joins it,
the fetch completes, a later caller hits the cache — performs exactly one
fetch invocation. -/
theorem cache_single_fetch_per_key_witness :
    fetchInvocations "k"
      [CacheEvent.beginFetch "k", CacheEvent.join "k",
        CacheEvent.fetchOk "k" (GoValue.str "m"), CacheEvent.hit "k"] = 1 := by
  have htr : CacheTrace ⟨fun _ => none, fun _ => false⟩
      [CacheEvent.beginFetch "k", CacheEvent.join "k",
        CacheEvent.fetchOk "k" (GoValue.str "m"), CacheEvent.hit "k"]
      ⟨Function.update (fun _ => none) "k" (some (GoValue.str "m")),
        Function.update (Function.update (fun _ => false) "k" true) "k" false⟩ := by
    refine CacheTrace.cons (CacheStep.beginFetch _ "k" rfl rfl) ?_
    refine CacheTrace.cons (CacheStep.join _ "k" ?_) ?_
    · simp [Function.update_apply]
    refine CacheTrace.cons (CacheStep.fetchOk _ "k" (GoValue.str "m") ?_) ?_
    · simp [Function.update_apply]
    refine CacheTrace.cons (CacheStep.hit _ "k" (GoValue.str "m") ?_) (CacheTrace.nil _)
    simp [Function.update_apply]
  refine cache_single_fetch_per_key htr ?_ rfl rfl rfl
  intro x hx
  simp only [List.mem_cons, List.mem_singleton] at hx
  rcases hx with rfl | rfl | rfl | rfl | h
  · rfl
  · rfl
  · rfl
  · rfl
  · cases h

lemma dropWhile_slash_replicate (n : ℕ) (l : List Char) :
    List.dropWhile (fun c => c = '/') (List.replicate n '/' ++ l) =
      List.dropWhile (fun c => c = '/') l := by
  induction n with
  | zero => rfl
  | succ k ih => simp [List.replicate_succ, List.dropWhile_cons, ih]

lemma trimTrailingSlashes_append_slashes (s : String) (n : ℕ) :
    trimTrailingSlashes (s ++ String.mk (List.replicate n '/')) =
      trimTrailingSlashes s := by
  have hdata : (s ++ String.mk (List.replicate n '/')).data =
      s.data ++ List.replicate n '/' := rfl
  simp [trimTrailingSlashes, hdata, List.reverse_append,
    dropWhile_slash_replicate]

lemma isValidJwt_past_regex
    {u : List ℕ → Option (List (String × GoValue))} {jwt : String}
    (h0 : jwt ≠ "") (h1 : regxMatchString jwt = true) :
    isValidJwt u jwt ≠ .error malformedShapeError := by
  unfold isValidJwt
  rw [if_neg h0, if_neg (by simp [h1])]
  cases hd : base64StdDecode (padHeader (headerPart jwt)) with
  | none => simp [malformedShapeError]
  | some bytes =>
    cases hu : u bytes with
    | none => simp [hu, malformedShapeError]
    | some jsonObject =>
      simp only [hu]
      split_ifs <;> simp [malformedShapeError]

lemma dfltDiscovery_leeway (j : VerifierState) (d : ℤ) :
    dfltDiscovery { j with leeway := d } = { dfltDiscovery j with leeway := d } := by
  unfold dfltDiscovery
  by_cases h : j.hasDiscovery <;> simp [h]

lemma dfltTimeout_leeway (j : VerifierState) (d : ℤ) :
    dfltTimeout { j with leeway := d } = { dfltTimeout j with leeway := d } := by
  unfold dfltTimeout
  by_cases h : j.timeout = 0 <;> simp [h]

lemma dfltCleanup_leeway (j : VerifierState) (d : ℤ) :
    dfltCleanup { j with leeway := d } = { dfltCleanup j with leeway := d } := by
  unfold dfltCleanup
  by_cases h : j.cleanup = 0 <;> simp [h]

lemma dfltClient_leeway (j : VerifierState) (d : ℤ) :
    dfltClient { j with leeway := d } = { dfltClient j with leeway := d } := by
  unfold dfltClient
  by_cases h : j.hasClient <;> simp [h]

lemma dfltCache_leeway (j : VerifierState) (d : ℤ) :
    dfltCache { j with leeway := d } = { dfltCache j with leeway := d } := by
  unfold dfltCache
  by_cases h : j.hasCache <;> simp [h]

lemma newDefaults_leeway_irrel (j : VerifierState) (d : ℤ) :
    newDefaults (SetLeeway j d) = { newDefaults j with leeway := d } := by
  unfold newDefaults SetLeeway
  rw [dfltDiscovery_leeway, dfltTimeout_leeway, dfltCleanup_leeway,
    dfltClient_leeway, dfltCache_leeway]

/-! ## Claim theorems -/

/-- C5: leeway is symmetric — `validateExp` fails with the expired error
exactly when the claim is numeric and `now - leeway > exp`, and with the
missing-exp error exactly when it is not numeric; `validateIat` fails
with the issued-in-the-future error exactly when the claim is numeric and
`now + leeway < iat`, and with the missing-iat error exactly when it is
not numeric; tokens inside the leeway-widened window pass. -/
theorem validateExp_validateIat_leeway (leeway now : ℤ) (e i : GoValue) :
    (validateExp leeway now e = .error "the token is expired" ↔
      ∃ q : ℚ, e = .num q ∧ ((now - leeway : ℤ) : ℚ) > q) ∧
    (validateExp leeway now e = .error "exp: missing" ↔ ∀ q : ℚ, e ≠ .num q) ∧
    (validateExp leeway now e = .ok () ↔
      ∃ q : ℚ, e = .num q ∧ ((now - leeway : ℤ) : ℚ) ≤ q) ∧
    (validateIat leeway now i = .error "the token was issued in the future" ↔
      ∃ q : ℚ, i = .num q ∧ ((now + leeway : ℤ) : ℚ) < q) ∧
    (validateIat leeway now i = .error "iat: missing" ↔ ∀ q : ℚ, i ≠ .num q) ∧
    (validateIat leeway now i = .ok () ↔
      ∃ q : ℚ, i = .num q ∧ q ≤ ((now + leeway : ℤ) : ℚ)) := by
  refine ⟨?_, ?_, ?_, ?_, ?_, ?_⟩ <;>
    [cases e; cases e; cases e; cases i; cases i; cases i] <;>
    simp [validateExp, validateIat] <;>
    first
      | (constructor <;> intro h <;> linarith)
      | (split_ifs <;> simp)

/-- C7: `validateIss` succeeds exactly when the stringified claim issuer
and the configured issuer agree after trimming trailing slashes; it is
insensitive to trailing slashes appended to either side, and in
particular configured `"https://example.com/"` matches the claim
`"https://example.com"`. -/
theorem validateIss_trailing_slash_insensitive (cfg : Config) (v : GoValue)
    (a b : String) (cl : List (String × String)) (n m : ℕ) :
    (validateIss cfg v = .ok () ↔
      trimTrailingSlashes (goSprintV v) = trimTrailingSlashes cfg.Issuer) ∧
    (validateIss ⟨a ++ String.mk (List.replicate n '/'), cl⟩
        (.str (b ++ String.mk (List.replicate m '/'))) = .ok () ↔
      validateIss ⟨a, cl⟩ (.str b) = .ok ()) ∧
    validateIss ⟨"https://example.com/", []⟩ (.str "https://example.com") = .ok () := by
  refine ⟨?_, ?_, ?_⟩
  · simp only [validateIss, normalizeIssuer, goSprintV]
    split_ifs with hc <;> simp [hc]
  · simp only [validateIss, normalizeIssuer, goSprintV,
      trimTrailingSlashes_append_slashes]
  · rfl

lemma scanAudList_eq_dropWhile (expected : String) (whole l : List GoValue) :
    scanAudList expected whole l =
      match l.dropWhile (fun e =>
          match e with
          | .str s => decide (s ≠ expected)
          | _ => false) with
      | [] => .error ("aud: " ++ goSprintV (.list whole) ++ " does not match " ++ expected)
      | .str _ :: _ => .ok ()
      | _ :: _ => .error "unknown type for audience validation" := by
  induction l with
  | nil => rfl
  | cons e rest ih =>
    cases e with
    | str s =>
      by_cases hs : s = expected
      · simp [scanAudList, List.dropWhile_cons, hs]
      · simp [scanAudList, List.dropWhile_cons, hs, ih]
    | null => simp [scanAudList, List.dropWhile_cons]
    | num q => simp [scanAudList, List.dropWhile_cons]
    | boolean b => simp [scanAudList, List.dropWhile_cons]
    | strList l2 => simp [scanAudList, List.dropWhile_cons]
    | list l2 => simp [scanAudList, List.dropWhile_cons]
    | obj l2 => simp [scanAudList, List.dropWhile_cons]

/-- C3 counterexample: with expected audience `"x"`, the JSON-decoded
claim `["x", 1]` contains a non-string element, yet `validateAudience`
passes (the match is found before the non-string element is inspected),
contradicting the claim that a non-string element anywhere fails with the
unknown-audience-type error. -/
theorem validateAudience_mixed_list_counterexample :
    validateAudience ⟨"iss", [("aud", "x")]⟩
        (.list [.str "x", .num 1]) = .ok () ∧
    validateAudience ⟨"iss", [("aud", "x")]⟩
        (.list [.str "x", .num 1]) ≠
      .error "unknown type for audience validation" := by
  constructor
  · rfl
  · intro h
    rw [show validateAudience ⟨"iss", [("aud", "x")]⟩
        (.list [.str "x", .num 1]) = .ok () from rfl] at h
    exact Except.noConfusion h

/-- C3 (amended): `validateAudience` passes whenever no `aud` is
configured; a string claim passes exactly when equal to the expected
value; a `[]string` claim exactly when it contains it; a JSON-decoded
list is scanned left to right — it passes exactly when the expected value
occurs before any non-string element, fails with the unknown-type error
when a non-string element occurs first, and with the mismatch error when
the list is exhausted; all other dynamic types fail with the unknown-type
error. -/
theorem validateAudience_eq_spec (cfg : Config) (audience : GoValue) :
    validateAudience cfg audience = validateAudienceSpec cfg audience := by
  unfold validateAudience validateAudienceSpec
  cases hl : claimsLookup cfg "aud" with
  | none => rfl
  | some expected =>
    have hget : claimsGet cfg "aud" = expected := by
      simp [claimsGet, hl]
    cases audience with
    | str s =>
      by_cases hs : s = expected <;>
        simp [GoValue.eqStr, hget, hs]
    | strList l => simp [GoValue.eqStr, hget]
    | list l =>
      simp only [GoValue.eqStr, Bool.false_eq_true, if_false]
      rw [hget, scanAudList_eq_dropWhile]
      rfl
    | null => rfl
    | num q => rfl
    | boolean b => rfl
    | obj l2 => rfl

/-- C4 counterexample: with expected client id `"x"`, the JSON-decoded
claim `["x"]` — a list of strings as decoded from JSON — fails with the
unknown-client-id-type error instead of passing: `validateClientId` has
no case for `[]interface\x7b\x7d`. -/
theorem validateClientId_json_list_counterexample :
    validateClientId ⟨"iss", [("cid", "x")]⟩ (.list [.str "x"]) =
      .error "unknown type for clientId validation" ∧
    validateClientId ⟨"iss", [("cid", "x")]⟩ (.list [.str "x"]) ≠ .ok () := by
  constructor
  · rfl
  · intro h
    rw [show validateClientId ⟨"iss", [("cid", "x")]⟩ (.list [.str "x"]) =
        .error "unknown type for clientId validation" from rfl] at h
    exact Except.noConfusion h

/-- C4 (amended): `validateClientId` passes whenever no `cid` is
configured; a string claim passes exactly when equal to the expected
value and a `[]string`-typed claim exactly when it contains it, each
failing otherwise with the mismatch error; every other dynamic type —
including the `[]interface\x7b\x7d` lists JSON decoding produces, even when all
elements are strings, and a missing claim — fails with the
unknown-client-id-type error. -/
theorem validateClientId_eq_spec (cfg : Config) (clientId : GoValue) :
    validateClientId cfg clientId = validateClientIdSpec cfg clientId := by
  unfold validateClientId validateClientIdSpec
  cases hl : claimsLookup cfg "cid" with
  | none => rfl
  | some cid =>
    cases clientId with
    | str s =>
      by_cases hs : s = cid <;>
        simp [GoValue.eqStr, hs]
    | strList l => simp [GoValue.eqStr]
    | list l => rfl
    | null => rfl
    | num q => rfl
    | boolean b => rfl
    | obj l2 => rfl

/-- C2 counterexample: `exToken` contains `'!'` — a character outside
the alphabet `[A-Za-z0-9_-]`, `'.'` and `'/'` — yet it is fully accepted
by `isValidJwt` (the unanchored pattern search matches the token's
suffix, and the first segment is a well-formed header); moreover the
alphabet-only segment pair `"ab.cd"` fails the pattern.  Both refute the
claim that exactly the compact-JWT-shaped strings are accepted and that
every string with a foreign character is rejected with the
malformed-shape failure. -/
theorem isValidJwt_shape_counterexample :
    isValidJwt exUnmarshal exToken = .ok () ∧
    exToken.data.contains '!' = true ∧
    regxMatchString "ab.cd" = false := by
  refine ⟨rfl, rfl, rfl⟩

/-- C2 (amended): the pattern stage is an unanchored search with the
pattern anchored only at the end of the string, so `isValidJwt` fails
with the malformed-shape error exactly when the token is non-empty and
no suffix of it matches the pattern `regxAccepts`; a string containing
characters outside the alphabet can pass the pattern stage whenever a
suffix matches, and continues to the header checks. -/
theorem isValidJwt_malformedShape_iff
    (u : List ℕ → Option (List (String × GoValue))) (jwt : String) :
    isValidJwt u jwt = .error malformedShapeError ↔
      jwt ≠ "" ∧ regxMatchString jwt = false := by
  constructor
  · intro h
    by_cases h0 : jwt = ""
    · exfalso
      rw [h0] at h
      unfold isValidJwt at h
      simp [jwtEmptyStringError, malformedShapeError] at h
    · refine ⟨h0, ?_⟩
      by_cases h1 : regxMatchString jwt
      · exact absurd h (isValidJwt_past_regex h0 (by simpa using h1))
      · simpa using h1
  · rintro ⟨h0, h1⟩
    unfold isValidJwt
    rw [if_neg h0, if_pos (by simp [h1])]

lemma VerifyIdToken_eq_spec (cfg : Config) (ext : External) (jwt : String) :
    VerifyIdToken cfg ext jwt = VerifyIdTokenSpec cfg ext jwt := by
  unfold VerifyIdToken VerifyIdTokenSpec VerifyPipelineSpec
  simp only [decodeJwt, getMetaData]
  cases h0 : isValidJwt ext.unmarshal jwt with
  | error e => rfl
  | ok _ =>
    cases hm : ext.cacheGet (cfg.Issuer ++ ext.wellKnownUrl) with
    | error e => rfl
    | ok value =>
      cases value with
      | obj metadata =>
        cases hL : lookupGo metadata "jwks_uri" with
        | str jwksURI =>
          cases hA : ext.adaptorDecode jwt jwksURI with
          | error e => simp [hL, hA, retShape, isPanicRes]
          | ok resp =>
            cases resp with
            | obj token =>
              cases h1 : validateIss cfg (lookupGo token "iss") <;>
                cases h2 : validateAudience cfg (lookupGo token "aud") <;>
                  cases h3 : validateExp ext.leeway ext.nowUnix (lookupGo token "exp") <;>
                    cases h4 : validateIat ext.leeway ext.nowUnix (lookupGo token "iat") <;>
                      cases h5 : validateNonce cfg (lookupGo token "nonce") <;>
                        simp [hL, hA, specClaimPhase, idChecks, firstFailure,
                          h1, h2, h3, h4, h5]
            | null => simp [hL, hA, specClaimPhase]
            | str s => simp [hL, hA, specClaimPhase]
            | num q => simp [hL, hA, specClaimPhase]
            | boolean b => simp [hL, hA, specClaimPhase]
            | strList l => simp [hL, hA, specClaimPhase]
            | list l => simp [hL, hA, specClaimPhase]
        | null => simp [hL]
        | num q => simp [hL]
        | boolean b => simp [hL]
        | strList l => simp [hL]
        | list l => simp [hL]
        | obj l => simp [hL]
      | null => rfl
      | str s => rfl
      | num q => rfl
      | boolean b => rfl
      | strList l => rfl
      | list l => rfl

lemma VerifyAccessToken_eq_spec (cfg : Config) (ext : External) (jwt : String) :
    VerifyAccessToken cfg ext jwt = VerifyAccessTokenSpec cfg ext jwt := by
  unfold VerifyAccessToken VerifyAccessTokenSpec VerifyPipelineSpec
  simp only [decodeJwt, getMetaData]
  cases h0 : isValidJwt ext.unmarshal jwt with
  | error e => rfl
  | ok _ =>
    cases hm : ext.cacheGet (cfg.Issuer ++ ext.wellKnownUrl) with
    | error e => rfl
    | ok value =>
      cases value with
      | obj metadata =>
        cases hL : lookupGo metadata "jwks_uri" with
        | str jwksURI =>
          cases hA : ext.adaptorDecode jwt jwksURI with
          | error e => simp [hL, hA, retShape, isPanicRes]
          | ok resp =>
            cases resp with
            | obj token =>
              cases h1 : validateIss cfg (lookupGo token "iss") <;>
                cases h2 : validateAudience cfg (lookupGo token "aud") <;>
                  cases h3 : validateClientId cfg (lookupGo token "cid") <;>
                    cases h4 : validateExp ext.leeway ext.nowUnix (lookupGo token "exp") <;>
                      cases h5 : validateIat ext.leeway ext.nowUnix (lookupGo token "iat") <;>
                        simp [hL, hA, specClaimPhase, accessChecks, firstFailure,
                          h1, h2, h3, h4, h5]
            | null => simp [hL, hA, specClaimPhase]
            | str s => simp [hL, hA, specClaimPhase]
            | num q => simp [hL, hA, specClaimPhase]
            | boolean b => simp [hL, hA, specClaimPhase]
            | strList l => simp [hL, hA, specClaimPhase]
            | list l => simp [hL, hA, specClaimPhase]
        | null => simp [hL]
        | num q => simp [hL]
        | boolean b => simp [hL]
        | strList l => simp [hL]
        | list l => simp [hL]
        | obj l => simp [hL]
      | null => rfl
      | str s => rfl
      | num q => rfl
      | boolean b => rfl
      | strList l => rfl
      | list l => rfl

/-- C1: both verification entry points run structural validation, the
metadata lookup, the signature-adaptor decode and then their fixed claim
check sequences (Issuer, Audience, Expiry, Issued-At, Nonce for ID
tokens; Issuer, Audience, Client ID, Expiry, Issued-At for access
tokens) in exactly that order, short-circuiting at the first failing
stage and returning that stage's wrapped error. -/
theorem verify_pipeline_fixed_order (cfg : Config) (ext : External) (jwt : String) :
    VerifyIdToken cfg ext jwt = VerifyIdTokenSpec cfg ext jwt ∧
    VerifyAccessToken cfg ext jwt = VerifyAccessTokenSpec cfg ext jwt :=
  ⟨VerifyIdToken_eq_spec cfg ext jwt, VerifyAccessToken_eq_spec cfg ext jwt⟩

/-- C6: the wrapped claim set is attached to the result exactly when the
pipeline reaches the claim checks — it is `none` (with an error) when
the structural check, the metadata fetch or the decode fails, and
`some` both on full success (then with no error) and on any claim-level
failure (then alongside the error). -/
theorem verify_claims_attachment (cfg : Config) (ext : External) (jwt : String) :
    retShape (VerifyIdToken cfg ext jwt) =
      (match isValidJwt ext.unmarshal jwt with
        | .error _ => some (none, true)
        | .ok _ =>
          match decodeJwt cfg ext jwt with
          | .error _ => some (none, true)
          | .ok (.obj token) =>
            some (some ⟨token⟩, (firstFailure (idChecks cfg ext token)).isSome)
          | .ok _ => none) ∧
    retShape (VerifyAccessToken cfg ext jwt) =
      (match isValidJwt ext.unmarshal jwt with
        | .error _ => some (none, true)
        | .ok _ =>
          match decodeJwt cfg ext jwt with
          | .error _ => some (none, true)
          | .ok (.obj token) =>
            some (some ⟨token⟩, (firstFailure (accessChecks cfg ext token)).isSome)
          | .ok _ => none) := by
  rw [VerifyIdToken_eq_spec, VerifyAccessToken_eq_spec]
  constructor <;>
  · simp only [VerifyIdTokenSpec, VerifyAccessTokenSpec, VerifyPipelineSpec,
      decodeJwt, getMetaData]
    cases h0 : isValidJwt ext.unmarshal jwt with
    | error e => rfl
    | ok _ =>
      cases hm : ext.cacheGet (cfg.Issuer ++ ext.wellKnownUrl) with
      | error e => rfl
      | ok value =>
        cases value with
        | obj metadata =>
          cases hL : lookupGo metadata "jwks_uri" with
          | str jwksURI =>
            cases hA : ext.adaptorDecode jwt jwksURI with
            | error e => simp [hL, hA, retShape, isPanicRes]
            | ok resp =>
              cases resp with
              | obj token =>
                cases hf : firstFailure (idChecks cfg ext token) <;>
                  cases hg : firstFailure (accessChecks cfg ext token) <;>
                    simp [hL, hA, specClaimPhase, retShape, hf, hg]
              | null => simp [hL, hA, specClaimPhase, retShape]
              | str s => simp [hL, hA, specClaimPhase, retShape]
              | num q => simp [hL, hA, specClaimPhase, retShape]
              | boolean b => simp [hL, hA, specClaimPhase, retShape]
              | strList l => simp [hL, hA, specClaimPhase, retShape]
              | list l => simp [hL, hA, specClaimPhase, retShape]
          | null => simp [hL, retShape]
          | num q => simp [hL, retShape]
          | boolean b => simp [hL, retShape]
          | strList l => simp [hL, retShape]
          | list l => simp [hL, retShape]
          | obj l => simp [hL, retShape]
        | null => rfl
        | str s => rfl
        | num q => rfl
        | boolean b => rfl
        | strList l => rfl
        | list l => rfl

/-- C9: when the structural check and the decode both succeed but the
adaptor's decoded value is not a `map[string]interface\x7b\x7d`, both entry
points panic on the unchecked type assertion; under the precondition
that the decode yields a claim mapping (or any stage fails) they never
panic. -/
theorem verify_panics_iff_nonmap_decode (cfg : Config) (ext : External) (jwt : String) :
    isPanicRes (VerifyIdToken cfg ext jwt) =
      (exceptOk (isValidJwt ext.unmarshal jwt) &&
        (match decodeJwt cfg ext jwt with
          | .ok v => !v.isObj
          | .error _ => false)) ∧
    isPanicRes (VerifyAccessToken cfg ext jwt) =
      (exceptOk (isValidJwt ext.unmarshal jwt) &&
        (match decodeJwt cfg ext jwt with
          | .ok v => !v.isObj
          | .error _ => false)) := by
  rw [VerifyIdToken_eq_spec, VerifyAccessToken_eq_spec]
  constructor <;>
  · simp only [VerifyIdTokenSpec, VerifyAccessTokenSpec, VerifyPipelineSpec,
      decodeJwt, getMetaData]
    cases h0 : isValidJwt ext.unmarshal jwt with
    | error e => rfl
    | ok _ =>
      cases hm : ext.cacheGet (cfg.Issuer ++ ext.wellKnownUrl) with
      | error e => rfl
      | ok value =>
        cases value with
        | obj metadata =>
          cases hL : lookupGo metadata "jwks_uri" with
          | str jwksURI =>
            cases hA : ext.adaptorDecode jwt jwksURI with
            | error e => simp [hL, hA, retShape, isPanicRes]
            | ok resp =>
              cases resp with
              | obj token =>
                cases hf : firstFailure (idChecks cfg ext token) <;>
                  cases hg : firstFailure (accessChecks cfg ext token) <;>
                    simp [hL, hA, specClaimPhase, isPanicRes, exceptOk, GoValue.isObj, hf, hg]
              | null => simp [hL, hA, specClaimPhase, isPanicRes, exceptOk, GoValue.isObj]
              | str s => simp [hL, hA, specClaimPhase, isPanicRes, exceptOk, GoValue.isObj]
              | num q => simp [hL, hA, specClaimPhase, isPanicRes, exceptOk, GoValue.isObj]
              | boolean b => simp [hL, hA, specClaimPhase, isPanicRes, exceptOk, GoValue.isObj]
              | strList l => simp [hL, hA, specClaimPhase, isPanicRes, exceptOk, GoValue.isObj]
              | list l => simp [hL, hA, specClaimPhase, isPanicRes, exceptOk, GoValue.isObj]
          | null => simp [hL, isPanicRes, exceptOk, GoValue.isObj]
          | num q => simp [hL, isPanicRes, exceptOk, GoValue.isObj]
          | boolean b => simp [hL, isPanicRes, exceptOk, GoValue.isObj]
          | strList l => simp [hL, isPanicRes, exceptOk, GoValue.isObj]
          | list l => simp [hL, isPanicRes, exceptOk, GoValue.isObj]
          | obj l => simp [hL, isPanicRes, exceptOk, GoValue.isObj]
        | null => rfl
        | str s => rfl
        | num q => rfl
        | boolean b => rfl
        | strList l => rfl
        | list l => rfl

/-- C10: whenever `New` returns successfully the verifier's leeway is
120 seconds regardless of prior state; a `SetLeeway` performed before
`New` is discarded (`New` behaves identically on the modified state),
while a `SetLeeway` performed after `New` takes effect. -/
theorem New_resets_leeway (ext : NewExternal) (j j2 : VerifierState) (d : ℤ)
    (h : New ext j = .ok j2) :
    j2.leeway = 120 ∧
    New ext (SetLeeway j d) = New ext j ∧
    (SetLeeway j2 d).leeway = d := by
  refine ⟨?_, ?_, rfl⟩
  · simp only [New] at h
    cases hA : (if ¬ (newDefaults j).hasAdaptor then ext.adaptorNew else Except.ok ()) with
    | error e =>
      rw [hA] at h
      exact absurd h (by simp)
    | ok u =>
      rw [hA] at h
      cases hC : ext.cacheNew with
      | error e =>
        rw [hC] at h
        exact absurd h (by simp)
      | ok u2 =>
        rw [hC] at h
        simp only [Except.ok.injEq] at h
        subst h
        rfl
  · have hnd : newDefaults (SetLeeway j d) = { newDefaults j with leeway := d } :=
      newDefaults_leeway_irrel j d
    simp only [New, hnd]
    by_cases hX : (newDefaults j).hasAdaptor <;>
      simp only [hX] <;>
        cases ext.adaptorNew <;>
          cases ext.cacheNew <;> simp [hX]

/-- Witness for `New_resets_leeway`: a verifier whose leeway had been set
to 999 before construction comes out of a successful `New` with leeway
120; setting it to 7 afterwards yields 7. -/
theorem New_resets_leeway_witness :
    (VerifierState.mk true 300000000000 600000000000 true true true 120 true).leeway = 120 ∧
    New ⟨.ok (), .ok ()⟩
        (SetLeeway ⟨false, 0, 0, false, false, false, 999, false⟩ 7) =
      New ⟨.ok (), .ok ()⟩ ⟨false, 0, 0, false, false, false, 999, false⟩ ∧
    (SetLeeway
        (VerifierState.mk true 300000000000 600000000000 true true true 120 true) 7).leeway = 7 :=
  New_resets_leeway ⟨.ok (), .ok ()⟩ ⟨false, 0, 0, false, false, false, 999, false⟩
    (VerifierState.mk true 300000000000 600000000000 true true true 120 true) 7 rfl

end OktaJwt
